import Mathlib

/-!
Verification of the continuum-fitting core of `ContinuumModel`
(`python/pfs/ga/pfsspec/stellar/continuum/models/continuummodel.py`).

Shallow embedding conventions:
* numpy float arrays of wavelengths become `List α` for a linearly ordered
  additive group `α` (only ordering, addition and subtraction of wavelengths
  occur in the source; theorems are generic in `α` and concrete evaluations
  use `α = ℤ`);
* flux arrays, where NaN semantics matter, become `List (Option ℝ)` with
  `none` modelling NaN (numpy propagates NaN through every operation used
  by the source, which `Option.bind`-style definitions mirror); the values
  flowing through the flux transforms are `PyVal` (an array, or the 1-tuple
  created by the trailing comma on source line 402) and calls that raise
  `TypeError` return `PyResult.typeError`;
* boolean numpy arrays become `List Bool`;
* the unbounded `while True` loop of `fit_function` is modelled with an
  explicit fuel argument: a `none` result means the loop was still running
  when the fuel ran out.
-/

namespace ContinuumModel

variable {α : Type} [LinearOrderedAddCommGroup α]

/-- Source `lessthan(a, b, strict)` (lines 223-228): strict chooses `<`
over `<=`. -/
def lessthan (a b : α) (strict : Bool) : Bool :=
  if strict then decide (a < b) else decide (a ≤ b)

/-- Elementwise boolean OR of two masks (numpy `m |= ...` on equal-length
arrays; `zipWith` agrees with numpy in the equal-length case). -/
def orMask (m1 m2 : List Bool) : List Bool :=
  List.zipWith or m1 m2

/-- Elementwise boolean AND of two masks (numpy `m &= mask`). -/
def andMask (m1 m2 : List Bool) : List Bool :=
  List.zipWith and m1 m2

/-- Boolean-mask indexing `xs[m]` of numpy: keep the elements at positions
where the mask is true. -/
def maskFilter {β : Type} (m : List Bool) (xs : List β) : List β :=
  (List.zip xs m).filterMap fun p => if p.2 then some p.1 else none

/-- Mask contributed by one range, lines 276-277 of the source:
`lessthan(r[0] + dlambda[0], wave, strict) & lessthan(wave, r[1] - dlambda[1], strict)`. -/
def rangeMask (wave : List α) (dl : α × α) (strict : Bool) (r : α × α) : List Bool :=
  wave.map fun wv => lessthan (r.1 + dl.1) wv strict && lessthan wv (r.2 - dl.2) strict

/-- Overflow test of line 270: `r[0] + dlambda[0] < wave[0] or
r[1] - dlambda[1] > wave[-1]`.  `headD`/`getLastD` stand for `wave[0]` and
`wave[-1]`; the Python code raises on an empty `wave`, so theorems about
overflow carry a `wave ≠ []` hypothesis under which the defaults are never
taken. -/
def overflowCond (wave : List α) (dl : α × α) (r : α × α) : Bool :=
  (decide (r.1 + dl.1 < wave.headD 0)) || (decide (r.2 - dl.2 > wave.getLastD 0))

/-- Loop body of `ranges_to_mask` (lines 266-277): iterate over the ranges
with their index `i`, accumulating the mask `m` and the list of overflowing
indices.  Mirrors the source: record the index when overflowing, `continue`
when `omit_overflow`, otherwise OR the range mask into the accumulator. -/
def rtmGo (wave : List α) (dl : α × α) (strict omit_overflow : Bool) :
    ℕ → List Bool → List (α × α) → List Bool × List ℕ
  | _, m, [] => (m, [])
  | i, m, r :: rest =>
    if overflowCond wave dl r then
      if omit_overflow then
        let rec1 := rtmGo wave dl strict omit_overflow (i + 1) m rest
        (rec1.1, i :: rec1.2)
      else
        let rec1 := rtmGo wave dl strict omit_overflow (i + 1)
          (orMask m (rangeMask wave dl strict r)) rest
        (rec1.1, i :: rec1.2)
    else
      let rec1 := rtmGo wave dl strict omit_overflow (i + 1)
        (orMask m (rangeMask wave dl strict r)) rest
      (rec1.1, rec1.2)

/-- Source `ranges_to_mask(wave, ranges, mask, dlambda, strict, omit_overflow)`
(lines 230-283).  The Python wrapping of a single range into a list and of a
scalar `dlambda` into a pair is reflected in the argument types.  The
accumulator starts as `np.full(wave.shape, False)` and the optional input
mask is AND-ed in at the end. -/
def ranges_to_mask (wave : List α) (ranges : List (α × α)) (mask : Option (List Bool))
    (dl : α × α) (strict omit_overflow : Bool) : List Bool × List ℕ :=
  let mo := rtmGo wave dl strict omit_overflow 0 (List.replicate wave.length false) ranges
  (match mask with
   | none => mo.1
   | some ma => andMask mo.1 ma, mo.2)

/-- Actual wavelength range covered by a mask (lines 320-325): the first and
last element of `wave[m]`, or the pair `(NaN, NaN)` — modelled as
`(none, none)` — when the mask selects nothing. -/
def rangeOf (wave : List α) (m : List Bool) : Option α × Option α :=
  let w := maskFilter m wave
  if w.isEmpty then (none, none) else (w.head?, w.getLast?)

/-- Consecutive pairs `(limits[i], limits[i+1])` visited by the loop of
`limits_to_masks` (line 299-300). -/
def consecPairs {β : Type} : List β → List (β × β)
  | a :: b :: rest => (a, b) :: consecPairs (b :: rest)
  | _ => []

/-- Loop body of `limits_to_masks` (lines 299-325): for each consecutive pair
of limits, substitute `wave[0]`/`wave[-1]` for `None` limits, record overflow
and skip the interval when `omit_overflow`, otherwise build the interval mask
(AND-ed with the optional input mask) and its actual covered range. -/
def ltmGo (wave : List α) (mask : Option (List Bool)) (dl : α × α)
    (strict omit_overflow : Bool) :
    ℕ → List (Option α × Option α) → List (List Bool) × List (Option α × Option α) × List ℕ
  | _, [] => ([], [], [])
  | i, l :: rest =>
    let l0 := l.1.getD (wave.headD 0)
    let l1 := l.2.getD (wave.getLastD 0)
    let m0 := wave.map fun wv => lessthan (l0 + dl.1) wv strict && lessthan wv (l1 - dl.2) strict
    let m := match mask with
      | none => m0
      | some ma => andMask m0 ma
    if overflowCond wave dl (l0, l1) then
      if omit_overflow then
        let rec1 := ltmGo wave mask dl strict omit_overflow (i + 1) rest
        (rec1.1, rec1.2.1, i :: rec1.2.2)
      else
        let rec1 := ltmGo wave mask dl strict omit_overflow (i + 1) rest
        (m :: rec1.1, rangeOf wave m :: rec1.2.1, i :: rec1.2.2)
    else
      let rec1 := ltmGo wave mask dl strict omit_overflow (i + 1) rest
      (m :: rec1.1, rangeOf wave m :: rec1.2.1, rec1.2.2)

/-- Source `limits_to_masks(wave, limits, mask, dlambda, strict, omit_overflow)`
(lines 285-327).  A `none` limit stands for Python `None` and is replaced by
the first/last wavelength.  Returns `(masks, ranges, overflow)`. -/
def limits_to_masks (wave : List α) (limits : List (Option α)) (mask : Option (List Bool))
    (dl : α × α) (strict omit_overflow : Bool) :
    List (List Bool) × List (Option α × Option α) × List ℕ :=
  ltmGo wave mask dl strict omit_overflow 0 (consecPairs limits)

/-- Wavelength-cache slice of the `ContinuumModel` instance state: the fields
read and written by `init_wave` (constructor lines 47-54, `init_wave`
lines 191-207).  `include_ranges`/`exclude_ranges` are configuration set at
construction time; `init_wave` never writes them. -/
structure CM (α : Type) where
  wave : Option (List α)
  include_ranges : Option (List (α × α))
  include_mask : Option (List Bool)
  include_overflow : Option (List ℕ)
  exclude_ranges : Option (List (α × α))
  exclude_mask : Option (List Bool)
  exclude_overflow : Option (List ℕ)

/-- Freshly constructed model (lines 47-54): ranges as configured, wave and
masks unset. -/
def CM.fresh (rs es : Option (List (α × α))) : CM α :=
  ⟨none, rs, none, none, es, none, none⟩

/-- Source `init_wave(wave, force, omit_overflow)` (lines 191-207).  The
three `if` blocks of the source are independent: the first binds the cache
`self.wave`, the other two recompute each mask from the ARGUMENT `wave`
(not `self.wave`) when forced or uninitialized.  `ranges_to_mask` is called
with its defaults `mask=None, dlambda=0, strict=False`. -/
def init_wave (s : CM α) (w : List α) (force omit_overflow : Bool) : CM α :=
  { s with
    wave := if force || s.wave.isNone then some w else s.wave,
    include_mask := s.include_ranges.elim s.include_mask fun rs =>
      if force || s.include_mask.isNone then
        some (ranges_to_mask w rs none (0, 0) false omit_overflow).1
      else s.include_mask,
    include_overflow := s.include_ranges.elim s.include_overflow fun rs =>
      if force || s.include_mask.isNone then
        some (ranges_to_mask w rs none (0, 0) false omit_overflow).2
      else s.include_overflow,
    exclude_mask := s.exclude_ranges.elim s.exclude_mask fun rs =>
      if force || s.exclude_mask.isNone then
        some (ranges_to_mask w rs none (0, 0) false omit_overflow).1
      else s.exclude_mask,
    exclude_overflow := s.exclude_ranges.elim s.exclude_overflow fun rs =>
      if force || s.exclude_mask.isNone then
        some (ranges_to_mask w rs none (0, 0) false omit_overflow).2
      else s.exclude_overflow }

/-- A sequence of `init_wave` calls, each with its own wavelength vector,
force flag and omit-overflow flag. -/
def runInitWaves (s : CM α) (calls : List (List α × Bool × Bool)) : CM α :=
  calls.foldl (fun t c => init_wave t c.1 c.2.1 c.2.2) s

/-- Cache coherence for one (ranges, mask) side of the state: if ranges are
configured, the wave cache and the mask are either both unset or both set
with equal lengths; if no ranges are configured the mask never gets set. -/
def sideInv (ranges : Option (List (α × α))) (mask : Option (List Bool))
    (wave : Option (List α)) : Prop :=
  (ranges = none → mask = none) ∧
  (ranges ≠ none → (wave = none ∧ mask = none) ∨
    ∃ w m, wave = some w ∧ mask = some m ∧ m.length = w.length)

/-- Cache coherence of the full wavelength-cache state. -/
def cmInv (s : CM α) : Prop :=
  sideInv s.include_ranges s.include_mask s.wave ∧
  sideInv s.exclude_ranges s.exclude_mask s.wave

/-- The `FittableFunction` collaborator of `fit_function` (spec section 3):
`get_param_count()`, `get_min_point_count()`, `fit(x, y, w, p0)` and
`eval(x, params)`.  `fit` and `eval` accept `Option P` for the parameter
vector because the Python code passes `params`, which is `None` before the
first fit (the source never calls `eval` with `None`, but the contract does
not forbid it). -/
structure FitFunc (γ P : Type) where
  param_count : ℕ
  min_point_count : ℕ
  fit : List γ → List γ → Option (List γ) → Option P → P
  eval : List γ → Option P → List γ

/-- The `ContinuumFinder` collaborator:
`find(iter, x, y, w=w, mask=mask, model=model) -> (mask, need_more_iter)`. -/
structure Finder (γ P : Type) where
  find : ℕ → List γ → List γ → Option (List γ) → List Bool → List γ → List Bool × Bool

/-- One invocation context of `fit_function` (lines 420-429): the model state
it reads (`self.continuum_finder`, `self.max_iter`) and the call arguments.
`max_iter` is carried because the constructor stores it (line 40); whether
`fit_function` consults it is exactly what claim C1 is about. -/
structure FFInst (γ P : Type) where
  func : FitFunc γ P
  selfFinder : Option (Finder γ P)
  argFinder : Option (Finder γ P)
  max_iter : ℕ
  x : List γ
  y : List γ
  w : Option (List γ)
  p0 : Option P

/-- Line 429: `continuum_finder = continuum_finder if continuum_finder is not
None else self.continuum_finder`. -/
def FFInst.finder {γ P : Type} (I : FFInst γ P) : Option (Finder γ P) :=
  match I.argFinder with
  | some F => some F
  | none => I.selfFinder

/-- Line 440: `iter == 0 and p0 is not None and self.continuum_finder is not
None` — note the source tests `self.continuum_finder`, not the local
(argument-overridable) `continuum_finder`. -/
def reuseCond {γ P : Type} (I : FFInst γ P) (iter : ℕ) : Bool :=
  (iter == 0) && I.p0.isSome && I.selfFinder.isSome

/-- Observable outcome of the `while True` loop of `fit_function`
(lines 436-476).  `success` and `params` are the source's local variables at
loop exit; `fitCount` (number of `func.fit` invocations) and `iters` (value
of `iter` at exit) are instrumentation counters that do not exist in the
source but are determined by its control flow. -/
structure LoopResult (P : Type) where
  success : Bool
  params : Option P
  fitCount : ℕ
  iters : ℕ
  deriving DecidableEq

/-- The `while True` loop of `fit_function` (lines 436-476), with explicit
fuel: `none` means the loop had not exited after `fuel` executions of the
body.  Each body execution mirrors the source in order: optional reuse of
`p0` on iteration 0 (line 440-442) or a call to `func.fit` on the masked
points seeded with the previous params (line 446-448); `success = True`
unconditionally (line 457); exit if no finder (line 461-462); else evaluate
the model, call `finder.find`, increment `iter`, exit if
`not need_more_iter` or if the new mask has fewer true points than
`min_point_count` (lines 466-475). -/
def fitLoop {γ P : Type} (I : FFInst γ P) :
    ℕ → ℕ → Option P → ℕ → List Bool → Option (LoopResult P)
  | 0, _, _, _, _ => none
  | fuel + 1, iter, params, fitCount, mask =>
    let params' := if reuseCond I iter then I.p0
      else some (I.func.fit (maskFilter mask I.x) (maskFilter mask I.y)
        (Option.map (maskFilter mask) I.w) params)
    let fitCount' := if reuseCond I iter then fitCount else fitCount + 1
    let success := true
    match I.finder with
    | none => some ⟨success, params', fitCount', iter⟩
    | some F =>
      let fr := F.find iter I.x I.y I.w mask (I.func.eval I.x params')
      if fr.2 then
        if fr.1.count true < I.func.min_point_count then
          some ⟨success, params', fitCount', iter + 1⟩
        else
          fitLoop I fuel (iter + 1) params' fitCount' fr.1
      else some ⟨success, params', fitCount', iter + 1⟩

/-- Parameter part of the value `fit_function` returns: either the loop's
`params` (line 478) or the NaN-filled vector `np.full(param_count, np.nan)`
of line 480. -/
inductive FFRet (P : Type) where
  | ok (p : Option P)
  | nanVec (n : ℕ)
  deriving DecidableEq

/-- Source `fit_function` (lines 420-480) up to the fuel bound: build the
initial mask (`np.full_like(x, True)` when no mask is given, else
`mask.copy()`, which has the same element values as `mask`), run the loop,
then return `(True, params)` when `success` else `(False, nan-vector)`
(lines 477-480). -/
def fit_function {γ P : Type} (I : FFInst γ P) (mask : Option (List Bool)) (fuel : ℕ) :
    Option (Bool × FFRet P) :=
  let mask0 := match mask with
    | none => List.replicate I.x.length true
    | some m => m
  (fitLoop I fuel 0 none 0 mask0).map fun r =>
    if r.success then (true, FFRet.ok r.params) else (false, FFRet.nanVec I.func.param_count)

/-- Heap of boolean numpy arrays, for tracking which arrays `fit_function`
writes.  Addresses below `next` are allocated; `alloc` returns a fresh
address.  This models numpy object identity: `mask.copy()` and every array
returned by `finder.find` are fresh arrays, while the caller keeps the
address of the array it passed in. -/
structure Store where
  mem : ℕ → List Bool
  next : ℕ

/-- Allocate a fresh array holding `v`. -/
def Store.alloc (σ : Store) (v : List Bool) : ℕ × Store :=
  (σ.next, ⟨fun a => if a = σ.next then v else σ.mem a, σ.next + 1⟩)

/-- The loop of `fit_function` with the evolving mask held in the store: the
local variable `mask` is an address; `mask, need_more_iter =
continuum_finder.find(...)` (line 467) rebinds the local to the fresh array
the finder returned, which the embedding renders as an allocation.  Control
flow is identical to `fitLoop`. -/
def fitLoopSt {γ P : Type} (I : ContinuumModel.FFInst γ P) :
    ℕ → ℕ → Option P → ℕ → ℕ → Store → Option (ContinuumModel.LoopResult P) × Store
  | 0, _, _, _, _, σ => (none, σ)
  | fuel + 1, iter, params, fitCount, maskAddr, σ =>
    let mask := σ.mem maskAddr
    let params' := if ContinuumModel.reuseCond I iter then I.p0
      else some (I.func.fit (ContinuumModel.maskFilter mask I.x)
        (ContinuumModel.maskFilter mask I.y)
        (Option.map (ContinuumModel.maskFilter mask) I.w) params)
    let fitCount' := if ContinuumModel.reuseCond I iter then fitCount else fitCount + 1
    match I.finder with
    | none => (some ⟨true, params', fitCount', iter⟩, σ)
    | some F =>
      let fr := F.find iter I.x I.y I.w mask (I.func.eval I.x params')
      let al := σ.alloc fr.1
      if fr.2 then
        if fr.1.count true < I.func.min_point_count then
          (some ⟨true, params', fitCount', iter + 1⟩, al.2)
        else
          fitLoopSt I fuel (iter + 1) params' fitCount' al.1 al.2
      else (some ⟨true, params', fitCount', iter + 1⟩, al.2)

/-- Store-level `fit_function` (lines 420-480).  The caller optionally passes
the address of its mask array.  Lines 431-434: with no mask, allocate
`np.full_like(x, True)`; with a mask, allocate `mask.copy()` — a fresh array
with the same contents.  The local name `mask` then only ever refers to
fresh arrays. -/
def fit_functionSt {γ P : Type} (I : ContinuumModel.FFInst γ P) (maskRef : Option ℕ)
    (fuel : ℕ) (σ : Store) : Option (Bool × ContinuumModel.FFRet P) × Store :=
  let al := match maskRef with
    | none => σ.alloc (List.replicate I.x.length true)
    | some r => σ.alloc (σ.mem r)
  let res := fitLoopSt I fuel 0 none 0 al.1 al.2
  (res.1.map fun r =>
    if r.success then (true, ContinuumModel.FFRet.ok r.params)
    else (false, ContinuumModel.FFRet.nanVec I.func.param_count), res.2)

/-- Elementwise semantics of source `safe_log` (lines 484-485) on a float:
`np.log(np.where(x > 1e-7, x, np.nan))`.  `none` models NaN: `nan > 1e-7`
is false so `np.where` yields NaN, and `log(nan) = nan`, hence NaN
propagates, which `Option.bind` captures. -/
noncomputable def safe_log (x : Option ℝ) : Option ℝ :=
  x.bind fun v => if v > 1e-7 then some (Real.log v) else none

/-- Elementwise semantics of source `safe_log_error` (lines 487-488) on
floats: `np.where(x > 1e-7, sigma / x, np.nan)`; `nan / x` and `sigma / nan`
are NaN. -/
noncomputable def safe_log_error (x s : Option ℝ) : Option ℝ :=
  x.bind fun v => if v > 1e-7 then s.map (fun sv => sv / v) else none

/-- Elementwise semantics of source `safe_exp` (lines 490-491) on a float:
`np.exp(np.where(x < 100, x, np.nan))` (`nan < 100` is false,
`exp(nan) = nan`). -/
noncomputable def safe_exp (x : Option ℝ) : Option ℝ :=
  x.bind fun v => if v < 100 then some (Real.exp v) else none

/-- Elementwise semantics of source `safe_exp_error` (lines 493-494) on
floats: `np.where(x < 100, x * sigma, np.nan)`. -/
noncomputable def safe_exp_error (x s : Option ℝ) : Option ℝ :=
  x.bind fun v => if v < 100 then s.map (fun sv => v * sv) else none

/-- A Python value flowing through the flux-transform code: a numpy float
array, or a tuple wrapping a value — the shape produced by the trailing
comma of source line 402 (`flux = self.safe_log(flux),`). -/
inductive PyVal where
  | arr (a : List (Option ℝ))
  | tup (v : PyVal)

/-- Outcome of a flux-transform call: a value, or a raised `TypeError`.
The guard expressions `x > 1e-7` (lines 485, 488) and `x < 100` (lines 491,
493) are evaluated in plain Python before `np.where` is called; when `x` is
a tuple, `tuple > float` / `tuple < int` raises `TypeError` (tuples compare
only with tuples; numpy is never reached). -/
inductive PyResult (β : Type) where
  | ok (v : β)
  | typeError

/-- Source `safe_log` (lines 484-485) at the call level: elementwise on an
array, `TypeError` on a tuple argument (the guard `x > 1e-7` raises). -/
noncomputable def safe_log_py : PyVal → PyResult PyVal
  | .arr a => .ok (.arr (a.map safe_log))
  | .tup _ => .typeError

/-- Source `safe_log_error` (lines 487-488) at the call level, with `sigma`
an array (the callers pass the spectrum's `flux_err` array): elementwise on
an array `x`, `TypeError` on a tuple `x` (the guard `x > 1e-7` raises). -/
noncomputable def safe_log_error_py (x : PyVal) (sigma : List (Option ℝ)) :
    PyResult (List (Option ℝ)) :=
  match x with
  | .arr a => .ok (List.zipWith safe_log_error a sigma)
  | .tup _ => .typeError

/-- Source `safe_exp` (lines 490-491) at the call level: elementwise on an
array, `TypeError` on a tuple argument (the guard `x < 100` raises). -/
noncomputable def safe_exp_py : PyVal → PyResult PyVal
  | .arr a => .ok (.arr (a.map safe_exp))
  | .tup _ => .typeError

/-- Source `safe_exp_error` (lines 493-494) at the call level, with `sigma`
an array: elementwise on an array `x`, `TypeError` on a tuple `x`. -/
noncomputable def safe_exp_error_py (x : PyVal) (sigma : List (Option ℝ)) :
    PyResult (List (Option ℝ)) :=
  match x with
  | .arr a => .ok (List.zipWith safe_exp_error a sigma)
  | .tup _ => .typeError

/-- Source `transform_flux_forward` (lines 400-405), faithful to the source
as written.  Line 402 `flux = self.safe_log(flux),` ends in a comma, so the
reassigned `flux` is the 1-TUPLE wrapping the log array (`PyVal.tup`).
Line 403 then calls `safe_log_error(flux, flux_err)` with that tuple, which
raises `TypeError` at the guard whenever `flux_err` is present. -/
noncomputable def transform_flux_forward (use_log_flux : Bool) (flux : PyVal)
    (flux_err : Option (List (Option ℝ))) :
    PyResult (PyVal × Option (List (Option ℝ))) :=
  if use_log_flux then
    match safe_log_py flux with
    | .typeError => .typeError
    | .ok lf =>
      let flux2 := PyVal.tup lf
      match flux_err with
      | none => .ok (flux2, none)
      | some fe =>
        match safe_log_error_py flux2 fe with
        | .typeError => .typeError
        | .ok fe2 => .ok (flux2, some fe2)
  else .ok (flux, flux_err)

/-- Source `transform_flux_reverse` (lines 407-412): `flux = safe_exp(flux)`
(no trailing comma here), then `flux_err = safe_exp_error(flux, flux_err)`
with the transformed `flux`.  On an array input this is the normal
elementwise path; on the tuple that `transform_flux_forward` produces,
`safe_exp` raises `TypeError` at its guard (line 491). -/
noncomputable def transform_flux_reverse (use_log_flux : Bool) (flux : PyVal)
    (flux_err : Option (List (Option ℝ))) :
    PyResult (PyVal × Option (List (Option ℝ))) :=
  if use_log_flux then
    match safe_exp_py flux with
    | .typeError => .typeError
    | .ok ef =>
      match flux_err with
      | none => .ok (ef, none)
      | some fe =>
        match safe_exp_error_py ef fe with
        | .typeError => .typeError
        | .ok fe2 => .ok (ef, some fe2)
  else .ok (flux, flux_err)

/-- Claim-side description (C9): the ordered sequence of indices, from `i`
on, of the ranges satisfying the overflow condition. -/
def specOverflowIndices (wave : List α) (dl : α × α) : ℕ → List (α × α) → List ℕ
  | _, [] => []
  | i, r :: rest =>
    if overflowCond wave dl r then i :: specOverflowIndices wave dl (i + 1) rest
    else specOverflowIndices wave dl (i + 1) rest

/-- Claim-side description (C9): the ranges that contribute to the mask —
all of them when `omit_overflow` is false, only the non-overflowing ones
when it is true. -/
def contributing (wave : List α) (dl : α × α) (omit_overflow : Bool)
    (ranges : List (α × α)) : List (α × α) :=
  if omit_overflow then ranges.filter (fun r => !overflowCond wave dl r) else ranges

/-- Claim-side description (C9) of the mask `ranges_to_mask` returns: OR of
the masks of the contributing ranges, AND-ed with the optional input mask. -/
def specMask (wave : List α) (ranges : List (α × α)) (mask : Option (List Bool))
    (dl : α × α) (strict omit_overflow : Bool) : List Bool :=
  let base := (contributing wave dl omit_overflow ranges).foldl
    (fun acc r => orMask acc (rangeMask wave dl strict r))
    (List.replicate wave.length false)
  match mask with
  | none => base
  | some ma => andMask base ma

/-- Fit function used by the concrete loop evaluations: declared parameter
and minimum point counts, a `fit` that returns the constant `fitval` (so a
run shows whether `fit` ever executed), and an `eval` returning `x`. -/
def constFitFunc (pc mpc fitval : ℕ) : FitFunc ℕ ℕ :=
  ⟨pc, mpc, fun _ _ _ _ => fitval, fun x _ => x⟩

/-- Finder that always answers `needMoreIterations = true` with the mask
unchanged. -/
def keepFinder : Finder ℕ ℕ :=
  ⟨fun _ _ _ _ m _ => (m, true)⟩

/-- Finder that answers `needMoreIterations = false` on every call, with the
mask unchanged. -/
def stopFinder : Finder ℕ ℕ :=
  ⟨fun _ _ _ _ m _ => (m, false)⟩

/-- Finder that answers `needMoreIterations = true` but returns a mask with
a single active point. -/
def shrinkFinder : Finder ℕ ℕ :=
  ⟨fun _ _ _ _ _ _ => ([true], true)⟩

/-- Instance for C1: model-configured always-more finder, `max_iter = 5`
(the constructor default), no initial estimate. -/
def cI1 : FFInst ℕ ℕ :=
  ⟨constFitFunc 2 0 0, some keepFinder, none, 5, [0, 1, 2], [0, 1, 2], none, none⟩

/-- Instance for C2: finder stops on its first call, no initial estimate,
`fit` returns 7. -/
def cI2 : FFInst ℕ ℕ :=
  ⟨constFitFunc 2 0 7, some stopFinder, none, 5, [0, 1, 2], [0, 1, 2], none, none⟩

/-- Instance for C3: initial estimate `p0 = 42` supplied and a
model-configured finder that stops immediately; `fit` would return 99, so a
99 in the result would prove `fit` ran. -/
def cI3 : FFInst ℕ ℕ :=
  ⟨constFitFunc 2 0 99, some stopFinder, none, 5, [0, 1, 2], [0, 1, 2], none, some 42⟩

/-- Instance for C8: minimum point count 5, finder shrinks the mask to one
point while asking for more iterations. -/
def cI8 : FFInst ℕ ℕ :=
  ⟨constFitFunc 2 5 7, some shrinkFinder, none, 5, [0, 1, 2], [0, 1, 2], none, none⟩

/-- Instance for C10: always-more finder, so the store-level loop really
allocates and iterates. -/
def cI10 : FFInst ℕ ℕ :=
  ⟨constFitFunc 2 0 7, some keepFinder, none, 5, [0, 1], [0, 1], none, none⟩

/-- Concrete two-array store for the C10 witness: address 0 holds the
caller's mask. -/
def demoStore : Store :=
  ⟨fun _ => [true, false], 1⟩

theorem orMask_length (m1 m2 : List Bool) (h : m1.length = m2.length) :
    (orMask m1 m2).length = m1.length := by
  simp [orMask, h]

theorem rtmGo_fst_length (wave : List α) (dl : α × α) (strict omit_overflow : Bool)
    (ranges : List (α × α)) : ∀ (i : ℕ) (m : List Bool), m.length = wave.length →
    (rtmGo wave dl strict omit_overflow i m ranges).1.length = wave.length := by
  induction ranges with
  | nil => intro i m hm; simpa [rtmGo] using hm
  | cons r rest ih =>
    intro i m hm
    have hor : (orMask m (rangeMask wave dl strict r)).length = wave.length := by
      rw [orMask_length]
      · exact hm
      · simp [rangeMask, hm]
    by_cases hov : overflowCond wave dl r
    · by_cases ho : omit_overflow
      · simpa [rtmGo, hov, ho] using ih (i + 1) m hm
      · simpa [rtmGo, hov, ho] using ih (i + 1) _ hor
    · simpa [rtmGo, hov] using ih (i + 1) _ hor

theorem ranges_to_mask_length (wave : List α) (ranges : List (α × α))
    (mask : Option (List Bool)) (dl : α × α) (strict omit_overflow : Bool)
    (hm : ∀ ma, mask = some ma → ma.length = wave.length) :
    (ranges_to_mask wave ranges mask dl strict omit_overflow).1.length = wave.length := by
  have hgo := rtmGo_fst_length wave dl strict omit_overflow ranges 0
    (List.replicate wave.length false) (by simp)
  cases mask with
  | none => simpa [ranges_to_mask] using hgo
  | some ma =>
    have hma := hm ma rfl
    simp [ranges_to_mask, andMask, hgo, hma]

theorem consecPairs_length {β : Type} (l : List β) :
    (consecPairs l).length = l.length - 1 := by
  induction l with
  | nil => simp [consecPairs]
  | cons a rest ih =>
    cases rest with
    | nil => simp [consecPairs]
    | cons b rest2 =>
      simp only [consecPairs, List.length_cons] at ih ⊢
      omega

theorem ltmGo_no_omit (wave : List α) (mask : Option (List Bool)) (dl : α × α)
    (strict : Bool) (l : List (Option α × Option α)) : ∀ i : ℕ,
    (ltmGo wave mask dl strict false i l).1.length = l.length ∧
    (ltmGo wave mask dl strict false i l).2.1 =
      (ltmGo wave mask dl strict false i l).1.map (rangeOf wave) := by
  induction l with
  | nil => intro i; simp [ltmGo]
  | cons p rest ih =>
    intro i
    have h := ih (i + 1)
    by_cases hov : overflowCond wave dl
      (p.1.getD (wave.headD 0), p.2.getD (wave.getLastD 0)) = true
    · simp only [ltmGo, if_pos hov, Bool.false_eq_true, if_false, List.length_cons,
        List.map_cons]
      exact ⟨by rw [h.1], by rw [h.2]⟩
    · simp only [ltmGo, if_neg hov, List.length_cons, List.map_cons]
      exact ⟨by rw [h.1], by rw [h.2]⟩

theorem ltmGo_omit (wave : List α) (mask : Option (List Bool)) (dl : α × α)
    (strict : Bool) (l : List (Option α × Option α)) : ∀ i : ℕ,
    (ltmGo wave mask dl strict true i l).1.length
      + (ltmGo wave mask dl strict true i l).2.2.length = l.length ∧
    (ltmGo wave mask dl strict true i l).2.1 =
      (ltmGo wave mask dl strict true i l).1.map (rangeOf wave) := by
  induction l with
  | nil => intro i; simp [ltmGo]
  | cons p rest ih =>
    intro i
    have h := ih (i + 1)
    by_cases hov : overflowCond wave dl
      (p.1.getD (wave.headD 0), p.2.getD (wave.getLastD 0)) = true
    · simp only [ltmGo, if_pos hov, if_true, List.length_cons]
      exact ⟨by omega, h.2⟩
    · simp only [ltmGo, if_neg hov, List.length_cons, List.map_cons]
      exact ⟨by omega, by rw [h.2]⟩

theorem sideInv_step (ranges : Option (List (α × α))) (mask : Option (List Bool))
    (wave : Option (List α)) (w : List α) (force omit_overflow : Bool)
    (h : sideInv ranges mask wave) :
    sideInv ranges
      (ranges.elim mask fun rs =>
        if force || mask.isNone then
          some (ranges_to_mask w rs none (0, 0) false omit_overflow).1
        else mask)
      (if force || wave.isNone then some w else wave) := by
  obtain ⟨h1, h2⟩ := h
  cases ranges with
  | none => exact ⟨fun _ => h1 rfl, fun hc => absurd rfl hc⟩
  | some rs =>
    constructor
    · intro hc; cases hc
    · intro hne
      rcases h2 (by simp) with ⟨hw, hm⟩ | ⟨wv, mv, hw, hm, hlen⟩
      · subst hw; subst hm
        refine Or.inr ⟨w, (ranges_to_mask w rs none (0, 0) false omit_overflow).1, ?_, ?_, ?_⟩
        · simp
        · simp [Option.elim]
        · exact ranges_to_mask_length w rs none (0, 0) false omit_overflow
            (by intro ma hma; cases hma)
      · subst hw; subst hm
        by_cases hf : force = true
        · refine Or.inr ⟨w, (ranges_to_mask w rs none (0, 0) false omit_overflow).1, ?_, ?_, ?_⟩
          · simp [hf]
          · simp [Option.elim, hf]
          · exact ranges_to_mask_length w rs none (0, 0) false omit_overflow
              (by intro ma hma; cases hma)
        · have hfb : force = false := by simpa using hf
          subst hfb
          exact Or.inr ⟨wv, mv, by simp, by simp [Option.elim], hlen⟩

theorem cmInv_init_wave (s : CM α) (w : List α) (force omit_overflow : Bool)
    (h : cmInv s) : cmInv (init_wave s w force omit_overflow) := by
  obtain ⟨hi, he⟩ := h
  constructor
  · exact sideInv_step s.include_ranges s.include_mask s.wave w force omit_overflow hi
  · exact sideInv_step s.exclude_ranges s.exclude_mask s.wave w force omit_overflow he

theorem cmInv_runInitWaves (s : CM α) (calls : List (List α × Bool × Bool))
    (h : cmInv s) : cmInv (runInitWaves s calls) := by
  induction calls generalizing s with
  | nil => exact h
  | cons c rest ih => exact ih _ (cmInv_init_wave s c.1 c.2.1 c.2.2 h)

omit [LinearOrderedAddCommGroup α] in
theorem cmInv_fresh (rs es : Option (List (α × α))) : cmInv (CM.fresh rs es : CM α) := by
  constructor
  · exact ⟨fun _ => rfl, fun _ => Or.inl ⟨rfl, rfl⟩⟩
  · exact ⟨fun _ => rfl, fun _ => Or.inl ⟨rfl, rfl⟩⟩

theorem Store.alloc_mem_lt (σ : Store) (v : List Bool) (a : ℕ) (h : a < σ.next) :
    ((σ.alloc v).2).mem a = σ.mem a := by
  simp only [Store.alloc]
  exact if_neg (by omega)

theorem Store.alloc_next (σ : Store) (v : List Bool) :
    σ.next ≤ ((σ.alloc v).2).next := by
  simp [Store.alloc]

theorem fitLoopSt_frame {γ P : Type} (I : ContinuumModel.FFInst γ P) :
    ∀ (fuel iter : ℕ) (params : Option P) (fitCount maskAddr : ℕ) (σ : Store),
    σ.next ≤ ((fitLoopSt I fuel iter params fitCount maskAddr σ).2).next ∧
    ∀ a, a < σ.next →
      ((fitLoopSt I fuel iter params fitCount maskAddr σ).2).mem a = σ.mem a := by
  intro fuel
  induction fuel with
  | zero => intro iter params fitCount maskAddr σ; exact ⟨le_refl _, fun a _ => rfl⟩
  | succ fuel ih =>
    intro iter params fitCount maskAddr σ
    cases hf : I.finder with
    | none => simp [fitLoopSt, hf]
    | some F =>
      simp only [fitLoopSt, hf]
      set pr : Option P := if ContinuumModel.reuseCond I iter = true then I.p0
        else some (I.func.fit (ContinuumModel.maskFilter (σ.mem maskAddr) I.x)
          (ContinuumModel.maskFilter (σ.mem maskAddr) I.y)
          (Option.map (ContinuumModel.maskFilter (σ.mem maskAddr)) I.w) params) with hpr
      set fr := F.find iter I.x I.y I.w (σ.mem maskAddr) (I.func.eval I.x pr) with hfr
      by_cases h2 : fr.2 = true
      · by_cases hc : fr.1.count true < I.func.min_point_count
        · rw [if_pos h2, if_pos hc]
          exact ⟨by simp [Store.alloc], fun a ha => Store.alloc_mem_lt σ _ a ha⟩
        · rw [if_pos h2, if_neg hc]
          have hrec := ih (iter + 1) pr
            (if ContinuumModel.reuseCond I iter = true then fitCount else fitCount + 1)
            (σ.alloc fr.1).1 (σ.alloc fr.1).2
          refine ⟨le_trans (Store.alloc_next σ fr.1) hrec.1, fun a ha => ?_⟩
          rw [hrec.2 a (lt_of_lt_of_le ha (Store.alloc_next σ fr.1))]
          exact Store.alloc_mem_lt σ fr.1 a ha
      · rw [if_neg h2]
        exact ⟨by simp [Store.alloc], fun a ha => Store.alloc_mem_lt σ _ a ha⟩

theorem rtmGo_snd_eq (wave : List α) (dl : α × α) (strict omit_overflow : Bool)
    (ranges : List (α × α)) : ∀ (i : ℕ) (m : List Bool),
    (rtmGo wave dl strict omit_overflow i m ranges).2 =
      specOverflowIndices wave dl i ranges := by
  induction ranges with
  | nil => intro i m; simp [rtmGo, specOverflowIndices]
  | cons r rest ih =>
    intro i m
    by_cases hov : overflowCond wave dl r = true
    · by_cases ho : omit_overflow = true
      · simp only [rtmGo, specOverflowIndices, if_pos hov, if_pos ho]
        rw [ih]
      · simp only [rtmGo, specOverflowIndices, if_pos hov, if_neg ho]
        rw [ih]
    · simp only [rtmGo, specOverflowIndices, if_neg hov]
      rw [ih]

theorem rtmGo_fst_eq (wave : List α) (dl : α × α) (strict omit_overflow : Bool)
    (ranges : List (α × α)) : ∀ (i : ℕ) (m : List Bool),
    (rtmGo wave dl strict omit_overflow i m ranges).1 =
      (contributing wave dl omit_overflow ranges).foldl
        (fun acc r => orMask acc (rangeMask wave dl strict r)) m := by
  induction ranges with
  | nil => intro i m; simp [rtmGo, contributing]
  | cons r rest ih =>
    intro i m
    by_cases hov : overflowCond wave dl r = true
    · by_cases ho : omit_overflow = true
      · simp only [rtmGo, contributing, if_pos hov, if_pos ho, List.filter_cons,
          Bool.not_eq_true', hov, Bool.not_true, List.foldl_cons]
        rw [ih]
        simp [contributing, ho]
      · simp only [rtmGo, contributing, if_pos hov, if_neg ho, List.foldl_cons]
        rw [ih]
        simp [contributing, ho]
    · by_cases ho : omit_overflow = true
      · simp only [rtmGo, contributing, if_neg hov, if_pos ho, List.filter_cons,
          Bool.not_eq_true', Bool.not_true, List.foldl_cons]
        rw [ih]
        simp only [contributing, if_pos ho]
        have hovf : overflowCond wave dl r = false := by simpa using hov
        rw [hovf]
        simp [List.foldl_cons]
      · simp only [rtmGo, contributing, if_neg hov, if_neg ho, List.foldl_cons]
        rw [ih]
        simp [contributing, ho]

theorem fitLoop_none_of_always_more {γ P : Type} (I : FFInst γ P) (F : Finder γ P)
    (hf : I.finder = some F)
    (hneed : ∀ n xs ys w m md, (F.find n xs ys w m md).2 = true)
    (hmin : ∀ n xs ys w m md, I.func.min_point_count ≤ (F.find n xs ys w m md).1.count true) :
    ∀ (fuel iter : ℕ) (params : Option P) (fitCount : ℕ) (mask : List Bool),
    fitLoop I fuel iter params fitCount mask = none := by
  intro fuel
  induction fuel with
  | zero => intro iter params fitCount mask; rfl
  | succ fuel ih =>
    intro iter params fitCount mask
    simp only [fitLoop, hf]
    split_ifs with hr h1 h2 h3 h4
    · exact absurd h2 (not_lt.mpr (hmin _ _ _ _ _ _))
    · exact ih _ _ _ _
    · exact absurd (hneed _ _ _ _ _ _) h1
    · exact absurd h4 (not_lt.mpr (hmin _ _ _ _ _ _))
    · exact ih _ _ _ _
    · exact absurd (hneed _ _ _ _ _ _) h3

/-- C1 counterexample: `fit_function` does not stop after `max_iter`
iterations.  With the default `max_iter = 5` and a finder that always
answers `needMoreIterations = true` with an unshrunk mask, granting the loop
`max_iter + 2` body executions still finds it running (`none` means the
fuel ran out before any exit was taken), so more than `max_iter` iterations
occur. -/
theorem fit_function_runs_past_max_iter :
    cI1.max_iter = 5 ∧ fit_function cI1 none (cI1.max_iter + 2) = none := by
  decide

/-- C1 (amended): the loop of `fit_function` is bounded only by the finder
replying `needMoreIterations = false` or by the minimum-point-count floor,
never by `max_iter` (which `fit_function` does not consult): a finder that
always asks for more iterations and always returns a mask meeting the floor
makes the loop run forever — for every fuel bound the loop is still
running. -/
theorem fit_function_no_max_iter_bound {γ P : Type} (I : FFInst γ P) (F : Finder γ P)
    (hf : I.finder = some F)
    (hneed : ∀ n xs ys w m md, (F.find n xs ys w m md).2 = true)
    (hmin : ∀ n xs ys w m md, I.func.min_point_count ≤ (F.find n xs ys w m md).1.count true) :
    ∀ (fuel : ℕ) (mask : Option (List Bool)), fit_function I mask fuel = none := by
  intro fuel mask
  simp [fit_function, fitLoop_none_of_always_more I F hf hneed hmin]

/-- Witness for C1: the always-more finder instance keeps the loop running
for 9 fuel as well. -/
theorem fit_function_no_max_iter_bound_witness : fit_function cI1 none 9 = none :=
  fit_function_no_max_iter_bound cI1 keepFinder rfl (fun _ _ _ _ _ _ => rfl)
    (fun _ _ _ _ _ _ => Nat.zero_le _) 9 none

/-- C2 counterexample: with a finder whose first reply is
`needMoreIterations = false`, the loop performs exactly 1 call to `func.fit`
(the initial one; the loop breaks on the finder's reply before any refit),
not 2 as claimed. -/
theorem fit_function_one_not_two_fits :
    (fitLoop cI2 5 0 none 0 (List.replicate 3 true)).map LoopResult.fitCount = some 1 ∧
    ¬(fitLoop cI2 5 0 none 0 (List.replicate 3 true)).map LoopResult.fitCount = some 2 := by
  decide

/-- C2 (amended): if the effective finder's first reply (iteration 0) has
`needMoreIterations = false`, the loop exits after that reply with exactly
one `func.fit` call — or zero calls when an initial estimate `p0` is given
and the model's own continuum finder is configured, which is the
reuse condition of line 440. -/
theorem fit_function_fit_count_on_immediate_stop {γ P : Type} (I : FFInst γ P)
    (F : Finder γ P) (mask0 : List Bool) (hf : I.finder = some F)
    (hF : ∀ md, (F.find 0 I.x I.y I.w mask0 md).2 = false) (fuel : ℕ) :
    ∃ r : LoopResult P, fitLoop I (fuel + 1) 0 none 0 mask0 = some r ∧
      r.success = true ∧ r.iters = 1 ∧
      r.fitCount = (if I.p0.isSome && I.selfFinder.isSome then 0 else 1) := by
  simp only [fitLoop, hf, hF, Bool.false_eq_true, if_false]
  refine ⟨_, rfl, rfl, rfl, ?_⟩
  simp [reuseCond]

/-- Witness for C2: the immediate-stop instance without `p0` performs exactly
one fit. -/
theorem fit_function_fit_count_on_immediate_stop_witness :
    ∃ r : LoopResult ℕ, fitLoop cI2 (4 + 1) 0 none 0 [true, true, true] = some r ∧
      r.success = true ∧ r.iters = 1 ∧
      r.fitCount = (if cI2.p0.isSome && cI2.selfFinder.isSome then 0 else 1) :=
  fit_function_fit_count_on_immediate_stop cI2 stopFinder [true, true, true] rfl
    (fun _ => rfl) 4

/-- C3 (code bug): on the path where the initial estimate is reused and the
finder stops immediately, no `func.fit` ever executes (the instrumented fit
count is 0 — `fit` would have returned 99), yet `fit_function` returns
`(True, p0)` rather than the claimed `(False, NaN-vector)`: line 457 sets
`success = True` unconditionally, even on the reuse path, so the
`(False, nan)` branch of line 480 is unreachable. -/
theorem fit_function_success_true_without_fit :
    fit_function cI3 none 5 = some (true, FFRet.ok (some 42)) ∧
    (fitLoop cI3 5 0 none 0 (List.replicate 3 true)).map LoopResult.fitCount = some 0 := by
  decide

/-- C4 (code bug): with log-flux mode enabled the forward-then-reverse
round trip never reconstructs the flux and never degrades to NaN — it
raises.  The trailing comma of line 402 makes the forward output the
1-tuple `(log-array,)`; evaluated on the flux array `[2.0]` (well inside
both guards, as the third conjunct shows), the forward transform returns
that tuple, and the reverse transform of it raises `TypeError` at
`safe_exp`'s guard `x < 100` (line 491), a plain-Python tuple-versus-number
comparison. -/
theorem transform_flux_roundtrip_raises :
    transform_flux_forward true (PyVal.arr [some 2]) none =
      PyResult.ok (PyVal.tup (PyVal.arr [safe_log (some 2)]), none) ∧
    transform_flux_reverse true (PyVal.tup (PyVal.arr [safe_log (some 2)])) none =
      PyResult.typeError ∧
    safe_log (some 2) = some (Real.log 2) ∧ (1e-7 : ℝ) < 2 ∧ Real.log 2 < 100 := by
  refine ⟨rfl, rfl, ?_, by norm_num, ?_⟩
  · simp [safe_log, if_pos (show (2 : ℝ) > 1e-7 by norm_num)]
  · exact lt_of_le_of_lt (Real.log_le_sub_one_of_pos two_pos) (by norm_num)

/-- C5 (code bug): with log-flux mode enabled and a flux uncertainty
present, `transform_flux_forward` never produces `sigma / flux` (nor any
NaN): it raises `TypeError` for every input.  Line 403 calls
`safe_log_error` with the 1-tuple produced by line 402's trailing comma,
and the guard `x > 1e-7` (line 488) is a plain-Python tuple-versus-float
comparison.  At `flux = [0.5]`, `sigma = [1.0]` — where `0.5 > 1e-7`
passes the claimed guard, so the claim demands `sigma / flux = 2.0` — the
call raises instead. -/
theorem transform_flux_forward_error_raises :
    transform_flux_forward true (PyVal.arr [some ((1 : ℝ)/2)]) (some [some 1]) =
      PyResult.typeError ∧
    (1e-7 : ℝ) < (1 : ℝ)/2 :=
  ⟨rfl, by norm_num⟩

/-- C6 (confirmed): every mask `ranges_to_mask` returns has the length of
the input wavelength vector (given a length-compatible optional input mask,
which numpy requires), and after any sequence of `init_wave` calls on a
fresh model the cached include and exclude masks, when set, have the length
of the cached wavelength vector. -/
theorem mask_length_invariant {α : Type} [LinearOrderedAddCommGroup α] :
    (∀ (wave : List α) (ranges : List (α × α)) (mask : Option (List Bool))
      (dl : α × α) (strict omit_overflow : Bool),
      (∀ ma, mask = some ma → ma.length = wave.length) →
      (ranges_to_mask wave ranges mask dl strict omit_overflow).1.length = wave.length) ∧
    (∀ (rs es : Option (List (α × α))) (calls : List (List α × Bool × Bool))
      (w : List α) (m : List Bool),
      (runInitWaves (CM.fresh rs es) calls).wave = some w →
      ((runInitWaves (CM.fresh rs es) calls).include_mask = some m →
        m.length = w.length) ∧
      ((runInitWaves (CM.fresh rs es) calls).exclude_mask = some m →
        m.length = w.length)) := by
  constructor
  · exact fun wave ranges mask dl strict omit_overflow hm =>
      ranges_to_mask_length wave ranges mask dl strict omit_overflow hm
  · intro rs es calls w m hw
    have hinv := cmInv_runInitWaves (CM.fresh rs es) calls (cmInv_fresh rs es)
    constructor
    · intro hm
      obtain ⟨h1, h2⟩ := hinv.1
      by_cases hr : (runInitWaves (CM.fresh rs es) calls).include_ranges = none
      · rw [h1 hr] at hm; cases hm
      · rcases h2 hr with ⟨_, hmn⟩ | ⟨w2, m2, hw2, hm2, hlen⟩
        · rw [hmn] at hm; cases hm
        · have hww : w2 = w := by rw [hw2] at hw; exact Option.some.inj hw
          have hmm : m2 = m := by rw [hm2] at hm; exact Option.some.inj hm
          rw [← hww, ← hmm]; exact hlen
    · intro hm
      obtain ⟨h1, h2⟩ := hinv.2
      by_cases hr : (runInitWaves (CM.fresh rs es) calls).exclude_ranges = none
      · rw [h1 hr] at hm; cases hm
      · rcases h2 hr with ⟨_, hmn⟩ | ⟨w2, m2, hw2, hm2, hlen⟩
        · rw [hmn] at hm; cases hm
        · have hww : w2 = w := by rw [hw2] at hw; exact Option.some.inj hw
          have hmm : m2 = m := by rw [hm2] at hm; exact Option.some.inj hm
          rw [← hww, ← hmm]; exact hlen

/-- Witness for C6: a concrete `ranges_to_mask` call and a concrete
`init_wave` run both satisfy the length invariant. -/
theorem mask_length_invariant_witness :
    (ranges_to_mask ([100, 150, 200] : List ℤ) [(50, 150)] none (0, 0)
      false false).1.length = ([100, 150, 200] : List ℤ).length ∧
    ([true, true, false] : List Bool).length = ([1, 2, 3] : List ℤ).length :=
  ⟨mask_length_invariant.1 [100, 150, 200] [(50, 150)] none (0, 0) false false
      (fun _ h => by cases h),
   (mask_length_invariant.2 (some [(1, 2)]) none [([1, 2, 3], true, false)]
      [1, 2, 3] [true, true, false] (by decide)).1 (by decide)⟩

/-- C7 counterexample: with `omitOverflow = true`, an overflowing interval
is skipped entirely, so for `wave = [100, 200]` and the 3 limits
`[50, 150, 200]` only 1 mask is returned, not `N - 1 = 2`. -/
theorem limits_to_masks_omit_drops_interval :
    (limits_to_masks ([100, 200] : List ℤ) [some 50, some 150, some 200] none (0, 0)
      false true).1.length = 1 ∧
    ¬(limits_to_masks ([100, 200] : List ℤ) [some 50, some 150, some 200] none (0, 0)
      false true).1.length =
        ([some 50, some 150, some 200] : List (Option ℤ)).length - 1 := by
  decide

/-- C7 (amended): `limits_to_masks` returns exactly `N - 1` masks when
`omitOverflow` is false; when it is true, each interval flagged overflowing
is omitted, so masks returned plus overflow indices recorded total `N - 1`.
In both modes the returned ranges are, interval by interval, the first and
last wavelength satisfying the interval's mask, or `(NaN, NaN)` (modelled
`(none, none)`) when the mask selects no wavelength. -/
theorem limits_to_masks_interval_counts {α : Type} [LinearOrderedAddCommGroup α]
    (wave : List α) (limits : List (Option α)) (mask : Option (List Bool))
    (dl : α × α) (strict : Bool) :
    ((limits_to_masks wave limits mask dl strict false).1.length = limits.length - 1 ∧
     (limits_to_masks wave limits mask dl strict false).2.1 =
       (limits_to_masks wave limits mask dl strict false).1.map (rangeOf wave)) ∧
    ((limits_to_masks wave limits mask dl strict true).1.length +
       (limits_to_masks wave limits mask dl strict true).2.2.length = limits.length - 1 ∧
     (limits_to_masks wave limits mask dl strict true).2.1 =
       (limits_to_masks wave limits mask dl strict true).1.map (rangeOf wave)) := by
  have h1 := ltmGo_no_omit wave mask dl strict (consecPairs limits) 0
  have h2 := ltmGo_omit wave mask dl strict (consecPairs limits) 0
  refine ⟨⟨?_, ?_⟩, ⟨?_, ?_⟩⟩
  · simp only [limits_to_masks]
    rw [h1.1, consecPairs_length]
  · simp only [limits_to_masks]
    exact h1.2
  · simp only [limits_to_masks]
    rw [← consecPairs_length limits]
    exact h2.1
  · simp only [limits_to_masks]
    exact h2.2

/-- C8 (confirmed): if, at any iteration, the finder replies
`needMoreIterations = true` but its returned mask has fewer true points than
the declared minimum point count, the loop stops right there with
`success = true` and the parameters of the fit completed in that same
iteration — exactly one more fit than before, and no refit on the shrunken
mask (so no NaN failure vector can arise: the result is `some`, with
success true). -/
theorem fitLoop_min_point_floor {γ P : Type} (I : FFInst γ P) (F : Finder γ P)
    (hf : I.finder = some F) (iter : ℕ) (params : Option P) (fitCount : ℕ)
    (mask : List Bool) (fuel : ℕ) (hreuse : reuseCond I iter = false)
    (hfind : (F.find iter I.x I.y I.w mask (I.func.eval I.x (some (I.func.fit
      (maskFilter mask I.x) (maskFilter mask I.y)
      (Option.map (maskFilter mask) I.w) params)))).2 = true)
    (hcount : (F.find iter I.x I.y I.w mask (I.func.eval I.x (some (I.func.fit
      (maskFilter mask I.x) (maskFilter mask I.y)
      (Option.map (maskFilter mask) I.w) params)))).1.count true <
      I.func.min_point_count) :
    fitLoop I (fuel + 1) iter params fitCount mask = some ⟨true,
      some (I.func.fit (maskFilter mask I.x) (maskFilter mask I.y)
        (Option.map (maskFilter mask) I.w) params), fitCount + 1, iter + 1⟩ := by
  simp only [fitLoop, hf, hreuse, Bool.false_eq_true, if_false]
  rw [if_pos hfind, if_pos hcount]

/-- Witness for C8: the shrinking-finder instance stops after its first
iteration with the parameters of its single completed fit. -/
theorem fitLoop_min_point_floor_witness :
    fitLoop cI8 (3 + 1) 0 none 0 [true, true, true] = some ⟨true,
      some (cI8.func.fit (maskFilter [true, true, true] cI8.x)
        (maskFilter [true, true, true] cI8.y)
        (Option.map (maskFilter [true, true, true]) cI8.w) none), 0 + 1, 0 + 1⟩ :=
  fitLoop_min_point_floor cI8 shrinkFinder rfl 0 none 0 [true, true, true] 3
    (by decide) (by decide) (by decide)

/-- C9 (confirmed): in `ranges_to_mask`, a range overflows exactly when
`lo + lowBuffer < wave.first` or `hi - highBuffer > wave.last`; the overflow
output is the ordered list of the overflowing indices; and the mask is the
OR of the range masks of the contributing ranges (all ranges when
`omitOverflow` is false, only the non-overflowing ones when true — so an
overflowing range contributes no true values then), AND-ed with the optional
input mask. -/
theorem ranges_to_mask_overflow_semantics {α : Type} [LinearOrderedAddCommGroup α]
    (wave : List α) (ranges : List (α × α)) (mask : Option (List Bool))
    (dl : α × α) (strict omit_overflow : Bool) (hne : wave ≠ []) :
    (ranges_to_mask wave ranges mask dl strict omit_overflow).2 =
      specOverflowIndices wave dl 0 ranges ∧
    (∀ r : α × α, overflowCond wave dl r =
      ((decide (r.1 + dl.1 < wave.head hne)) ||
       (decide (r.2 - dl.2 > wave.getLast hne)))) ∧
    (ranges_to_mask wave ranges mask dl strict omit_overflow).1 =
      specMask wave ranges mask dl strict omit_overflow := by
  refine ⟨?_, ?_, ?_⟩
  · simp only [ranges_to_mask]
    exact rtmGo_snd_eq wave dl strict omit_overflow ranges 0 _
  · intro r
    simp only [overflowCond]
    rw [List.headD_eq_head?, List.head?_eq_head hne, List.getLastD_eq_getLast?,
      List.getLast?_eq_getLast wave hne]
    rfl
  · cases mask with
    | none =>
      simp only [ranges_to_mask, specMask]
      exact rtmGo_fst_eq wave dl strict omit_overflow ranges 0 _
    | some ma =>
      simp only [ranges_to_mask, specMask]
      rw [rtmGo_fst_eq wave dl strict omit_overflow ranges 0 _]

/-- Witness for C9: the spec's own example — `wave = [100 .. 200]`, range
`(50, 150)` — is flagged overflowing. -/
theorem ranges_to_mask_overflow_semantics_witness :
    (ranges_to_mask ([100, 150, 200] : List ℤ) [(50, 150)] none (0, 0)
      false true).2 = specOverflowIndices ([100, 150, 200] : List ℤ) (0, 0) 0 [(50, 150)] :=
  (ranges_to_mask_overflow_semantics ([100, 150, 200] : List ℤ) [(50, 150)] none (0, 0)
    false true (by decide)).1

/-- C10 (confirmed): `fit_function` never writes to the caller's mask array:
the optional input mask is copied into a fresh array before the loop
(lines 431-434), and each finder result is a fresh array the local name is
rebound to, so every array the caller already held — its mask included — is
unchanged after the call, finder or no finder. -/
theorem fit_function_preserves_caller_mask {γ P : Type} (I : FFInst γ P)
    (maskRef : Option ℕ) (fuel : ℕ) (σ : Store) (a : ℕ) (ha : a < σ.next) :
    ((fit_functionSt I maskRef fuel σ).2).mem a = σ.mem a := by
  cases maskRef with
  | none =>
    simp only [fit_functionSt]
    have hfr := fitLoopSt_frame I fuel 0 none 0
      (σ.alloc (List.replicate I.x.length true)).1 (σ.alloc (List.replicate I.x.length true)).2
    rw [hfr.2 a (lt_of_lt_of_le ha (Store.alloc_next σ _))]
    exact Store.alloc_mem_lt σ _ a ha
  | some r =>
    simp only [fit_functionSt]
    have hfr := fitLoopSt_frame I fuel 0 none 0
      (σ.alloc (σ.mem r)).1 (σ.alloc (σ.mem r)).2
    rw [hfr.2 a (lt_of_lt_of_le ha (Store.alloc_next σ _))]
    exact Store.alloc_mem_lt σ _ a ha

/-- Witness for C10: a concrete run with a caller mask at address 0 leaves
that array unchanged. -/
theorem fit_function_preserves_caller_mask_witness :
    ((fit_functionSt cI10 (some 0) 3 demoStore).2).mem 0 = demoStore.mem 0 :=
  fit_function_preserves_caller_mask cI10 (some 0) 3 demoStore 0 (by decide)

end ContinuumModel
